import Mathlib

/-!
Shallow embedding of the graph-complex pipeline of this repository
(GraphVectorSpace.py, GraphOperator.py, GraphComplex.py,
OrdinaryGraphComplex.py), together with theorems settling the claims
about basis construction, operator-matrix construction, the store file
formats, rank computation, the square-zero and (anti-)commutativity
tests, cohomology dimensions and permutation signs.

The on-disk store (StoreLoad.py) is not part of the sources; files are
therefore modelled at the parsed-line level: a basis file is its header
number together with its list of lines, and a matrix file is its parsed
header together with its whitespace-split, int-parsed body lines.  The
decimal rendering done by `"%d" %` / `str` and the parsing done by `int`
are mutually inverse, so nothing is lost by this representation.
-/

namespace GH

/-- Python exceptions that the modelled code can raise.
`fileNotFound` models `StoreLoad.FileNotFoundError`, `valueError` models
`ValueError` (format or shape errors), `attributeError` models
`AttributeError` (access to a missing instance attribute). -/
inductive PyErr where
  | fileNotFound : PyErr
  | valueError : PyErr
  | attributeError : PyErr
deriving DecidableEq, Repr

/-- A stored basis file (GraphVectorSpace._store_basis_g6 layout):
the header line holds the dimension, the remaining lines are the
graph6 strings.  The header is kept as the parsed number. -/
structure BasisFile where
  header : Nat
  lines : List String
deriving DecidableEq, Repr

/-- A stored operator-matrix file (GraphOperator._store_matrix layout):
header line `d t M` (kept parsed: the two dimensions and the data-type
tag), then the body lines, each a list of int-parsed fields; the body
includes the terminator line `0 0 0` written by `_store_matrix`. -/
structure MatrixFile where
  d : Nat
  t : Nat
  tag : String
  body : List (List Int)
deriving DecidableEq, Repr

/-- State of one graph vector space as the operator code sees it:
its validity (is_valid()) and its basis file in the store, if any. -/
structure VSState where
  /-- identity of the space (parameter tuple); `==` of two spaces in the
  source compares their parameters. -/
  id : Nat
  valid : Bool
  basisFile : Option BasisFile
deriving DecidableEq, Repr

/-- GraphVectorSpace.get_dimension: an invalid space has dimension 0;
otherwise the dimension is the header of the basis file, and a missing
basis file raises StoreLoad.FileNotFoundError. -/
def VSState.get_dimension (vs : VSState) : Except PyErr Nat :=
  if ¬ vs.valid then .ok 0
  else
    match vs.basisFile with
    | none => .error .fileNotFound
    | some f => .ok f.header

/-- State of one graph operator as the code sees it: its two end
spaces and its matrix and rank files in the store, if any. -/
structure OpState where
  domain : VSState
  target : VSState
  matrixFile : Option MatrixFile
  rankFile : Option Int
deriving DecidableEq, Repr

/-- GraphOperator.is_valid: the operator is valid iff both of its end
spaces are valid. -/
def OpState.is_valid (op : OpState) : Bool :=
  op.domain.valid && op.target.valid

/-- GraphOperator.get_matrix_rank: an invalid operator reports rank 0
(with a warning); otherwise the rank file is read, a missing rank file
raising StoreLoad.FileNotFoundError. -/
def OpState.get_matrix_rank (op : OpState) : Except PyErr Int :=
  if ¬ op.is_valid then .ok 0
  else
    match op.rankFile with
    | none => .error .fileNotFound
    | some r => .ok r

/-- GraphDifferential.matches: opD.domain == opDD.target, where `==`
compares the parameters of the two spaces. -/
def opMatches (opD opDD : OpState) : Bool :=
  opD.domain.id == opDD.target.id

/-- GraphOperator._store_matrix: header line `d t M`, one body line
`(i+1) (j+1) v` per triplet (1-based indices), terminator line `0 0 0`.
In-memory triplets carry 0-based Nat indices and an integer value. -/
def store_matrix (matrixList : List (Nat × Nat × Int)) (shape : Nat × Nat) :
    MatrixFile :=
  ⟨shape.1, shape.2, "M",
    matrixList.map (fun e => [(e.1 : Int) + 1, (e.2.1 : Int) + 1, e.2.2])
      ++ [[0, 0, 0]]⟩

/-- One entry line of the matrix-file body as _load_matrix reads it:
exactly three integer fields `i j v` (ValueError otherwise), with the
1-based indices required to lie in 1..d × 1..t; returns the 0-based
triplet. -/
def parse_matrix_line (d t : Nat) (line : List Int) :
    Except PyErr (Nat × Nat × Int) :=
  match line with
  | [i, j, v] =>
    if i < 1 ∨ j < 1 then .error .valueError
    else if i > (d : Int) ∨ j > (t : Int) then .error .valueError
    else .ok ((i - 1).toNat, (j - 1).toNat, v)
  | _ => .error .valueError

/-- GraphOperator._load_matrix, given the current domain and target
dimensions: parse the header and check it against the dimensions
(ValueError on mismatch), pop the last line and check it is the
terminator `0 0 0`, parse each remaining line as a triplet, and return
the 0-based triplets together with the parsed shape. -/
def load_matrix (file : Option MatrixFile) (domainDim targetDim : Nat) :
    Except PyErr (List (Nat × Nat × Int) × (Nat × Nat)) := do
  match file with
  | none => .error .fileNotFound
  | some f =>
    let (d, t) := (f.d, f.t)
    if d ≠ domainDim ∨ t ≠ targetDim then .error .valueError
    else
      match f.body.getLast? with
      | none => .error .valueError
      | some tail =>
        if tail ≠ [0, 0, 0] then .error .valueError
        else do
          let entryLines := f.body.dropLast
          let matrixList ← entryLines.mapM (parse_matrix_line d t)
          .ok (matrixList, (d, t))

/-- GraphVectorSpace._store_basis_g6: the length of the list is
inserted as the header, then the list is stored. -/
def store_basis_g6 (basis_list : List String) : BasisFile :=
  ⟨basis_list.length, basis_list⟩

/-- GraphVectorSpace._load_basis_g6: a missing file raises
FileNotFoundError, a header disagreeing with the number of lines raises
ValueError, otherwise the lines are returned in their stored order. -/
def load_basis_g6 (file : Option BasisFile) :
    Except PyErr (List String) :=
  match file with
  | none => .error .fileNotFound
  | some f =>
    if f.lines.length ≠ f.header then .error .valueError
    else .ok f.lines

/-- GraphOperator.get_matrix_transposed: an invalid operator yields an
empty entry list with the shape taken from the two end-space dimensions
(this may itself raise FileNotFoundError); a valid operator loads its
matrix file.  The result is the sparse entry list together with the
shape (d, t) of the domain-indexed (transposed) matrix. -/
def get_matrix_transposed (op : OpState) :
    Except PyErr (List (Nat × Nat × Int) × (Nat × Nat)) := do
  if ¬ op.is_valid then do
    let d ← op.domain.get_dimension
    let t ← op.target.get_dimension
    .ok ([], (d, t))
  else do
    let d ← op.domain.get_dimension
    let t ← op.target.get_dimension
    load_matrix op.matrixFile d t

/-- GraphOperator.compute_rank, parameterised by the rank function of
the external linear-algebra backend (Sage's `Matrix.rank`), which is
applied to the loaded sparse matrix.  `.ok none` models returning with
no rank file written; `.ok (some r)` models writing `r` to the rank
file.  Only FileNotFoundError from the matrix load is caught (and only
when `skip_if_no_matrix` is set); a ValueError propagates. -/
def compute_rank (op : OpState)
    (rankFn : List (Nat × Nat × Int) × (Nat × Nat) → Int)
    (ignore_existing_files skip_if_no_matrix : Bool) :
    Except PyErr (Option Int) :=
  if ¬ op.is_valid then .ok none
  else if ¬ ignore_existing_files ∧ op.rankFile.isSome then .ok none
  else
    match get_matrix_transposed op with
    | .error .fileNotFound =>
      if ¬ skip_if_no_matrix then .error .fileNotFound else .ok none
    | .error e => .error e
    | .ok M => .ok (some (rankFn M))

/-- GraphDifferential.cohomology_dim.  `.ok none` models returning
`None` (unknown), `.ok (some c)` models returning the number c, and
`.error .valueError` models the `ValueError` raised on a negative
cohomology dimension. -/
def cohomology_dim (opD opDD : OpState) : Except PyErr (Option Int) :=
  match opD.domain.get_dimension with
  | .error _ => .ok none
  | .ok dimV =>
    if dimV = 0 then .ok (some 0)
    else
      match (if ¬ opD.is_valid then .ok 0 else opD.get_matrix_rank :
              Except PyErr Int) with
      | .error _ => .ok none
      | .ok rankD =>
        match (if ¬ opDD.is_valid then .ok 0 else opDD.get_matrix_rank :
                Except PyErr Int) with
        | .error _ => .ok none
        | .ok rankDD =>
          let cohomologyDim : Int := (dimV : Int) - rankD - rankDD
          if cohomologyDim < 0 then .error .valueError
          else .ok (some cohomologyDim)

/-! ### Python dict and set models

`_generate_matrix_list` accumulates coefficients in a Python dict and
`build_basis` accumulates canonical strings in a Python set.  A dict is
modelled as an association list with unique keys, updated in place; a
set as a duplicate-free list in first-insertion order (a CPython set
iterates in an implementation-defined hash order; every fact proved
below about set contents is independent of the iteration order). -/

/-- Python `d[k] = v` / `d.update({k: v})`: replace the value at an
existing key, otherwise append the new binding. -/
def pyDictUpdate {α : Type} : List (String × α) → String → α → List (String × α)
  | [], k, v => [(k, v)]
  | kv :: rest, k, v =>
    if kv.1 = k then (k, v) :: rest else kv :: pyDictUpdate rest k v

/-- Python `d.get(k)`: the value at key k, or None. -/
def pyDictGet {α : Type} : List (String × α) → String → Option α
  | [], _ => none
  | kv :: rest, k => if kv.1 = k then some kv.2 else pyDictGet rest k

/-- The dict comprehension `{G6: j for (j, G6) in enumerate(targetBasis6)}`
of GraphOperator.build_matrix: successive insertions of index values
keyed by the basis strings. -/
def buildLookup (basis : List String) : List (String × Nat) :=
  (basis.enum.map (fun p => (p.2, p.1))).foldl
    (fun d q => pyDictUpdate d q.1 q.2) []

/-- The `canonImages` dict built by GraphOperator._generate_matrix_list:
for each image (GG, prefactor), canonicalise GG to (GGcanon6, sgn1) and
add sgn1 * prefactor to the accumulated coefficient of GGcanon6. -/
def canonImagesFrom {G : Type} (canon : G → String × Int)
    (d : List (String × Int)) (imageList : List (G × Int)) :
    List (String × Int) :=
  imageList.foldl
    (fun d p =>
      let c := canon p.1
      let sgn0 := (pyDictGet d c.1).getD 0
      pyDictUpdate d c.1 (sgn0 + c.2 * p.2))
    d

/-- The total coefficient the dict accumulates for canonical string k:
the sum of sgn1 * prefactor over the images whose canonical string is
k. -/
def keySum {G : Type} (canon : G → String × Int)
    (imageList : List (G × Int)) (k : String) : Int :=
  (imageList.map
    (fun p => if (canon p.1).1 = k then (canon p.1).2 * p.2 else 0)).sum

/-- GraphOperator._generate_matrix_list for the domain basis element
with row index domainIndex whose images under operate_on are imageList:
group the images by the canonical string in the target's partition,
then emit a triplet (row, column, coefficient) for every nonzero
accumulated coefficient whose canonical string the target lookup knows;
a lookup miss is silently dropped. -/
def generate_matrix_list {G : Type} (domainIndex : Nat)
    (imageList : List (G × Int)) (canon : G → String × Int)
    (lookup : String → Option Nat) : List (Nat × Nat × Int) :=
  (canonImagesFrom canon [] imageList).filterMap
    (fun kv =>
      if kv.2 ≠ 0 then (lookup kv.1).map (fun q => (domainIndex, q, kv.2))
      else none)

/-- The matrix triplet list assembled by GraphOperator.build_matrix:
one _generate_matrix_list call per enumerated domain basis element,
results concatenated by `itertools.chain.from_iterable`.  The repository
runs the per-row calls through ParallelProgress.parallel_common_progress
(not among the sources); modelled from the spec: with one worker the
executor runs the jobs inline in list order, which is the order the
chain concatenates. -/
def build_matrix_list {G : Type} (domainBasis : List G)
    (targetBasis6 : List String) (operate_on : G → List (G × Int))
    (canon : G → String × Int) : List (Nat × Nat × Int) :=
  (domainBasis.enum.map
    (fun p =>
      generate_matrix_list p.1 (operate_on p.2) canon
        (pyDictGet (buildLookup targetBasis6)))).flatten

/-- The matrix file written by GraphOperator.build_matrix once both
bases are available, with the dimensions given by the two basis
lengths: an empty matrix when either dimension is 0, otherwise the
assembled triplet list, stored in assembly order by _store_matrix. -/
def build_matrix_stored {G : Type} (domainBasis : List G)
    (targetBasis6 : List String) (operate_on : G → List (G × Int))
    (canon : G → String × Int) : MatrixFile :=
  if domainBasis.length = 0 ∨ targetBasis6.length = 0 then
    store_matrix [] (domainBasis.length, targetBasis6.length)
  else
    store_matrix (build_matrix_list domainBasis targetBasis6 operate_on canon)
      (domainBasis.length, targetBasis6.length)

/-- GraphVectorSpace._has_odd_automorphisms: some generator of the
automorphism group has permutation sign -1. -/
def has_odd_automorphisms {G P : Type} (perm_sign : G → P → Int)
    (g : G) (automList : List P) : Bool :=
  automList.any (fun a => perm_sign g a == -1)

/-- One step of the basis-set accumulation of
GraphVectorSpace.build_basis: skip a graph whose canonical string is
already present, otherwise add the canonical string unless the graph
has an odd automorphism. -/
def basisStep {G P : Type} (canon6 : G → String) (autG : G → List P)
    (perm_sign : G → P → Int) (s : List String) (g : G) : List String :=
  if canon6 g ∈ s then s
  else if has_odd_automorphisms perm_sign g (autG g) then s
  else s ++ [canon6 g]

/-- The basis set accumulated by GraphVectorSpace.build_basis over the
generating list.  The Python set is modelled in first-insertion order
(CPython iterates a set in an implementation-defined hash order; the
facts proved below are independent of the order). -/
def basisSetFold {G P : Type} (canon6 : G → String) (autG : G → List P)
    (perm_sign : G → P → Int) (generatingList : List G) : List String :=
  generatingList.foldl (basisStep canon6 autG perm_sign) []

/-- GraphVectorSpace.build_basis: skip (producing no file) when the
space is invalid, when a basis file exists and ignore_existing_files is
not set, or when the generating list is empty; otherwise store the
accumulated basis set via _store_basis_g6.  `none` models returning
with no file written. -/
def build_basis {G P : Type} (valid exists_basis_file ignore_existing_files : Bool)
    (generatingList : List G) (canon6 : G → String) (autG : G → List P)
    (perm_sign : G → P → Int) : Option BasisFile :=
  if ¬ valid then none
  else if ¬ ignore_existing_files ∧ exists_basis_file then none
  else if generatingList.length = 0 then none
  else some (store_basis_g6 (basisSetFold canon6 autG perm_sign generatingList))

/-! ### Matrices, triviality and the composition tests -/

/-- The dense matrix built from a sparse entry list by
GraphOperator.get_matrix_transposed (Sage add_to_entry: coincident
entries add).  Entry (i, j) is the sum of the values v over the listed
triplets (i, j, v). -/
def matOf (entries : List (Nat × Nat × Int)) : Nat → Nat → Int :=
  fun i j =>
    entries.foldl
      (fun a e => if e.1 = i ∧ e.2.1 = j then a + e.2.2 else a) 0

/-- Matrix product with inner dimension k (row i of the left factor
dotted with column j of the right factor). -/
def matMul (k : Nat) (A B : Nat → Nat → Int) : Nat → Nat → Int :=
  fun i j => ((List.range k).map (fun m => A i m * B m j)).sum

/-- Sum of the absolute values of all entries of a matrix of the given
(rows, cols) shape.  This is the quantity square_zero_test computes
inline as `sum(map(abs, M.list()))`; for the commutativity test the
source calls Shared.matrix_norm, which is not among the sources —
modelled from the spec: the matrix 1-norm used for the `< eps`
comparisons, the entrywise sum of absolute values. -/
def matrix_norm (shape : Nat × Nat) (M : Nat → Nat → Int) : Int :=
  ((List.range shape.1).map
    (fun i => ((List.range shape.2).map (fun j => |M i j|)).sum)).sum

/-- GraphOperator.get_matrix_shape: the (t, d) pair from the matrix
file header if the file exists, otherwise from the two end-space
dimensions (raising FileNotFoundError if those are unknown too). -/
def get_matrix_shape (op : OpState) : Except PyErr (Nat × Nat) :=
  match op.matrixFile with
  | some f => .ok (f.t, f.d)
  | none => do
    let t ← op.target.get_dimension
    let d ← op.domain.get_dimension
    .ok (t, d)

/-- GraphOperator.get_matrix_entries: 0 for an invalid operator,
otherwise the number of stored triplets (FileNotFoundError if the
matrix file is missing). -/
def get_matrix_entries (op : OpState) : Except PyErr Nat :=
  if ¬ op.is_valid then .ok 0
  else do
    let d ← op.domain.get_dimension
    let t ← op.target.get_dimension
    let Ms ← load_matrix op.matrixFile d t
    .ok Ms.1.length

/-- GraphOperator.is_trivial: an invalid operator is trivial, as is one
with a zero dimension or with no stored entries. -/
def is_trivial (op : OpState) : Except PyErr Bool :=
  if ¬ op.is_valid then .ok true
  else do
    let s ← get_matrix_shape op
    if s.1 = 0 ∨ s.2 = 0 then .ok true
    else do
      let e ← get_matrix_entries op
      .ok (e == 0)

/-- GraphOperator.get_matrix: the transpose of the stored
domain-indexed matrix, returned with its (target-dim, domain-dim)
shape. -/
def get_matrix (op : OpState) :
    Except PyErr ((Nat × Nat) × (Nat → Nat → Int)) := do
  let Ms ← get_matrix_transposed op
  .ok ((Ms.2.2, Ms.2.1), fun i j => matOf Ms.1 j i)

/-- Python `or` with short-circuit evaluation in the Except monad. -/
def orM (a b : Except PyErr Bool) : Except PyErr Bool := do
  let x ← a
  if x then .ok true else b

/-- Run a computation, turning a FileNotFoundError into the inconclusive
result (the `except StoreLoad.FileNotFoundError` handlers of the
composition tests); other exceptions propagate. -/
def catchFNFinc {α : Type} (inc : α) (x : Except PyErr α) : Except PyErr α :=
  match x with
  | .error .fileNotFound => .ok inc
  | other => other

/-- Outcome of a composition test for one pair or quadruple. -/
inductive TestRes where
  | triv : TestRes
  | succ : TestRes
  | inc : TestRes
  | fail : TestRes
deriving DecidableEq, Repr

/-- The attribute access `op1.valid` performed by
Differential.square_zero_test (GraphOperator.py line 389).
GraphOperator.__init__ stores only the attributes `domain` and
`target`, and neither GraphOperator, GraphDifferential nor any concrete
operator class of the sources defines an attribute `valid` (validity is
the *method* is_valid), so on every operator instance this lookup
raises AttributeError. -/
def getattr_valid (_op : OpState) : Except PyErr Bool :=
  .error .attributeError

/-- The classification Differential.square_zero_test applies to one
composable pair (op1, op2): trivial if either operand's `valid`
attribute is falsy, inconclusive if a matrix file is missing, trivial
if either matrix is trivial, and otherwise success exactly when the
entrywise absolute sum of M2 · M1 is below eps. -/
def square_zero_classify (op1 op2 : OpState) (eps : ℚ) :
    Except PyErr TestRes := do
  let v1 ← getattr_valid op1
  let v2 ← getattr_valid op2
  if ¬ (v1 ∧ v2) then .ok .triv
  else do
    let loaded ←
      (match get_matrix op1 with
       | .error .fileNotFound => .ok none
       | .error e => .error e
       | .ok M1 =>
         match get_matrix op2 with
         | .error .fileNotFound => .ok none
         | .error e => .error e
         | .ok M2 => .ok (some (M1, M2)))
    match loaded with
    | none => .ok .inc
    | some ((s1, M1), (s2, M2)) => do
      let t1 ← is_trivial op1
      let t2 ← is_trivial op2
      if t1 ∨ t2 then .ok .triv
      else
        if (matrix_norm (s2.1, s1.2) (matMul s2.2 M2 M1) : ℚ) < eps then
          .ok .succ
        else .ok .fail

/-- Differential.square_zero_test: classify every composable pair
(op1, op2) with op2.matches(op1) over the product of the operator list
with itself and return the four counts
(trivial, success, inconclusive, failed). -/
def square_zero_test (op_list : List OpState) (eps : ℚ) :
    Except PyErr (Nat × Nat × Nat × Nat) := do
  let pairs := (op_list.map (fun a => op_list.map (fun b => (a, b)))).flatten
  pairs.foldlM
    (fun (c : Nat × Nat × Nat × Nat) p => do
      if opMatches p.2 p.1 then do
        let r ← square_zero_classify p.1 p.2 eps
        match r with
        | .triv => pure (c.1 + 1, c.2.1, c.2.2.1, c.2.2.2)
        | .succ => pure (c.1, c.2.1 + 1, c.2.2.1, c.2.2.2)
        | .inc => pure (c.1, c.2.1, c.2.2.1 + 1, c.2.2.2)
        | .fail => pure (c.1, c.2.1, c.2.2.1, c.2.2.2 + 1)
      else pure c)
    (0, 0, 0, 0)

/-- GraphComplex._test_anti_commutativity_for_quadruple for the
quadruple (op1a, op1b, op2a, op2b): trivial unless (op1a, op2b) or
(op2a, op1b) are both valid; if only one of the two compositions has
both operators valid, test that composition alone; otherwise combine
them, testing ‖M2b·M1a + ε·M1b·M2a‖ < eps with ε = -1 in commute mode
and ε = +1 in anti-commute mode.  A missing matrix file anywhere makes
the quadruple inconclusive. -/
def test_anti_commutativity_for_quadruple (op1a op1b op2a op2b : OpState)
    (commute : Bool) (eps : ℚ) : Except PyErr TestRes :=
  if ¬ ((op1a.is_valid ∧ op2b.is_valid) ∨ (op2a.is_valid ∧ op1b.is_valid))
  then .ok .triv
  else if op1a.is_valid ∧ op2b.is_valid ∧ ¬ (op2a.is_valid ∧ op1b.is_valid)
  then
    catchFNFinc .inc (do
      let t ← orM (is_trivial op1a) (is_trivial op2b)
      if t then .ok .triv
      else do
        let M1a ← get_matrix op1a
        let M2b ← get_matrix op2b
        if (matrix_norm (M2b.1.1, M1a.1.2) (matMul M2b.1.2 M2b.2 M1a.2) : ℚ)
            < eps then .ok .succ
        else .ok .fail)
  else if ¬ (op1a.is_valid ∧ op2b.is_valid) ∧ op2a.is_valid ∧ op1b.is_valid
  then
    catchFNFinc .inc (do
      let t ← orM (is_trivial op2a) (is_trivial op1b)
      if t then .ok .triv
      else do
        let M1b ← get_matrix op1b
        let M2a ← get_matrix op2a
        if (matrix_norm (M1b.1.1, M2a.1.2) (matMul M1b.1.2 M1b.2 M2a.2) : ℚ)
            < eps then .ok .succ
        else .ok .fail)
  else
    catchFNFinc .inc (do
      let c1 ← orM (is_trivial op1a) (is_trivial op2b)
      let c2 ← orM (is_trivial op2a) (is_trivial op1b)
      if c1 ∧ c2 then .ok .triv
      else if ¬ c1 ∧ c2 then do
        let M1a ← get_matrix op1a
        let M2b ← get_matrix op2b
        if (matrix_norm (M2b.1.1, M1a.1.2) (matMul M2b.1.2 M2b.2 M1a.2) : ℚ)
            < eps then .ok .succ
        else .ok .fail
      else if c1 ∧ ¬ c2 then do
        let M1b ← get_matrix op1b
        let M2a ← get_matrix op2a
        if (matrix_norm (M1b.1.1, M2a.1.2) (matMul M1b.1.2 M1b.2 M2a.2) : ℚ)
            < eps then .ok .succ
        else .ok .fail
      else do
        let M1a ← get_matrix op1a
        let M2b ← get_matrix op2b
        let M1b ← get_matrix op1b
        let M2a ← get_matrix op2a
        if (matrix_norm (M2b.1.1, M1a.1.2)
              (fun i j =>
                matMul M2b.1.2 M2b.2 M1a.2 i j
                  + (if commute then -1 else 1)
                    * matMul M1b.1.2 M1b.2 M2a.2 i j) : ℚ) < eps then
          .ok .succ
        else .ok .fail)

/-! ### Permutation signs of the ordinary graph vector space -/

/-- Number of inverted pairs of a list of labels. -/
def inversions : List Nat → Nat
  | [] => 0
  | x :: xs => xs.countP (fun y => decide (y < x)) + inversions xs

/-- Signature of a sequence of distinct labels, as Sage's
`Permutation(...).signature()` computes it (Shared.Perm.sign first
shifts to 1-based entries, which does not change the signature):
(-1) to the number of inversions. -/
def signList (l : List Nat) : Int :=
  if inversions l % 2 = 0 then 1 else -1

/-- An edge as Sage stores it: endpoints in increasing order. -/
def normEdge (e : Nat × Nat) : Nat × Nat :=
  if e.1 ≤ e.2 then e else (e.2, e.1)

/-- Lexicographic comparison of edges, the order in which Sage's
`G.edges()` reports them. -/
def edgeLeB (a b : Nat × Nat) : Bool :=
  a.1 < b.1 || (a.1 == b.1 && a.2 ≤ b.2)

/-- Insertion into a list sorted by le. -/
def insertSorted {α : Type} (le : α → α → Bool) (x : α) :
    List α → List α
  | [] => [x]
  | y :: ys => if le x y then x :: y :: ys else y :: insertSorted le x ys

/-- Insertion sort by le. -/
def sortBy {α : Type} (le : α → α → Bool) : List α → List α
  | [] => []
  | x :: xs => insertSorted le x (sortBy le xs)

/-- Image of vertex v under the relabelling list p (Python `p[v]`). -/
def applyPerm (p : List Nat) (v : Nat) : Nat :=
  p.getD v 0

/-- The odd-edge branch of OrdinaryGVS.perm_sign: label the edges
0..E-1 in the lexicographic order Sage reports them, relabel the
vertices by p, read the labels off in the lexicographic order of the
relabelled edges, and take the signature of that label sequence.
`edges` is the edge list of the graph in Sage's order (endpoints
ascending, lexicographically sorted). -/
def perm_sign_odd (edges : List (Nat × Nat)) (p : List Nat) : Int :=
  let labelled := edges.enum.map
    (fun je => (normEdge (applyPerm p je.2.1, applyPerm p je.2.2), je.1))
  let sorted := sortBy (fun a b => edgeLeB a.1 b.1) labelled
  signList (sorted.map (fun x => x.2))

/-- The even-edge branch of OrdinaryGVS.perm_sign: the sign of p as a
vertex permutation times -1 for every edge whose orientation (from the
larger to the smaller index) is reversed by p. -/
def perm_sign_even (edges : List (Nat × Nat)) (p : List Nat) : Int :=
  edges.foldl
    (fun sign e =>
      if (e.1 < e.2 ∧ applyPerm p e.1 > applyPerm p e.2)
          ∨ (e.1 > e.2 ∧ applyPerm p e.1 < applyPerm p e.2) then -sign
      else sign)
    (signList p)

/-- Parameters of OrdinaryGraphComplex.OrdinaryGVS. -/
structure OrdinaryGVS where
  n_vertices : Nat
  n_loops : Nat
  even_edges : Bool
deriving DecidableEq, Repr

/-- OrdinaryGVS.perm_sign, dispatching on the edge parity; the graph is
given by its Sage-ordered edge list. -/
def OrdinaryGVS.perm_sign (vs : OrdinaryGVS) (edges : List (Nat × Nat))
    (p : List Nat) : Int :=
  if vs.even_edges then perm_sign_even edges p else perm_sign_odd edges p

/-- The wheel W₅: hub 0 joined to the cycle 1-2-3-4-5, its 10 edges in
Sage's lexicographic order. -/
def wheelW5 : List (Nat × Nat) :=
  [(0, 1), (0, 2), (0, 3), (0, 4), (0, 5),
   (1, 2), (1, 5), (2, 3), (3, 4), (4, 5)]

/-! ### Lemmas on the dict model -/

theorem pyDictGet_update {α : Type} (d : List (String × α)) (k : String)
    (v : α) (k' : String) :
    pyDictGet (pyDictUpdate d k v) k' =
      if k' = k then some v else pyDictGet d k' := by
  induction d with
  | nil =>
    by_cases h : k' = k
    · simp [pyDictUpdate, pyDictGet, h]
    · have h' : ¬ k = k' := fun he => h he.symm
      simp [pyDictUpdate, pyDictGet, h, h']
  | cons kv rest ih =>
    obtain ⟨k0, v0⟩ := kv
    by_cases h1 : k0 = k <;> by_cases h2 : k' = k
    · subst h1
      subst h2
      simp [pyDictUpdate, pyDictGet]
    · subst h1
      have h2' : ¬ k0 = k' := fun he => h2 he.symm
      simp [pyDictUpdate, pyDictGet, h2, h2', ih]
    · subst h2
      have h1' : ¬ k' = k0 := fun he => h1 he.symm
      simp [pyDictUpdate, pyDictGet, h1, h1', ih]
    · by_cases h3 : k0 = k'
      · subst h3
        simp [pyDictUpdate, pyDictGet, h1, h2, ih]
      · have h3' : ¬ k' = k0 := fun he => h3 he.symm
        simp [pyDictUpdate, pyDictGet, h1, h2, h3, h3', ih]

theorem keys_update {α : Type} (d : List (String × α)) (k : String) (v : α) :
    (pyDictUpdate d k v).map Prod.fst =
      if k ∈ d.map Prod.fst then d.map Prod.fst
      else d.map Prod.fst ++ [k] := by
  induction d with
  | nil => simp [pyDictUpdate]
  | cons kv rest ih =>
    by_cases h1 : kv.1 = k
    · simp [pyDictUpdate, h1]
    · have h2 : ¬ k = kv.1 := fun h => h1 h.symm
      by_cases h3 : k ∈ rest.map Prod.fst <;>
        simp [pyDictUpdate, h1, h2, h3, ih]

theorem keys_update_nodup {α : Type} (d : List (String × α)) (k : String)
    (v : α) (h : (d.map Prod.fst).Nodup) :
    ((pyDictUpdate d k v).map Prod.fst).Nodup := by
  rw [keys_update]
  by_cases hk : k ∈ d.map Prod.fst
  · simpa [hk]
  · simpa [hk, List.nodup_append]

theorem pyDictGet_of_mem {α : Type} (d : List (String × α))
    (h : (d.map Prod.fst).Nodup) (kv : String × α) (hm : kv ∈ d) :
    pyDictGet d kv.1 = some kv.2 := by
  induction d with
  | nil => cases hm
  | cons hd rest ih =>
    cases hm with
    | head => simp [pyDictGet]
    | tail _ hm =>
      have h1 : hd.1 ≠ kv.1 := by
        intro he
        have h2 : kv.1 ∈ rest.map Prod.fst := List.mem_map_of_mem Prod.fst hm
        rw [← he] at h2
        exact (List.nodup_cons.mp (by simpa using h)).1 h2
      simp only [pyDictGet, if_neg h1]
      exact ih (List.nodup_cons.mp (by simpa using h)).2 hm

theorem mem_of_pyDictGet {α : Type} (d : List (String × α)) (k : String)
    (v : α) (h : pyDictGet d k = some v) : (k, v) ∈ d := by
  induction d with
  | nil => simp [pyDictGet] at h
  | cons hd rest ih =>
    obtain ⟨a, b⟩ := hd
    by_cases h1 : a = k
    · subst h1
      simp only [pyDictGet, if_pos rfl] at h
      obtain rfl : b = v := by injection h
      exact List.mem_cons_self _ _
    · simp only [pyDictGet, if_neg h1] at h
      exact List.mem_cons_of_mem _ (ih h)

theorem keySum_nil {G : Type} (canon : G → String × Int) (k : String) :
    keySum canon [] k = 0 := rfl

theorem keySum_cons {G : Type} (canon : G → String × Int) (p : G × Int)
    (l : List (G × Int)) (k : String) :
    keySum canon (p :: l) k =
      (if (canon p.1).1 = k then (canon p.1).2 * p.2 else 0)
        + keySum canon l k := by
  simp [keySum]

theorem canonImagesFrom_cons {G : Type} (canon : G → String × Int)
    (d : List (String × Int)) (p : G × Int) (l : List (G × Int)) :
    canonImagesFrom canon d (p :: l) =
      canonImagesFrom canon
        (pyDictUpdate d (canon p.1).1
          ((pyDictGet d (canon p.1).1).getD 0 + (canon p.1).2 * p.2)) l := rfl

theorem pyDictGet_canonImagesFrom {G : Type} (canon : G → String × Int)
    (l : List (G × Int)) :
    ∀ (d : List (String × Int)) (k : String),
      pyDictGet (canonImagesFrom canon d l) k =
        match pyDictGet d k with
        | some s => some (s + keySum canon l k)
        | none =>
          if l.any (fun p => (canon p.1).1 == k) then some (keySum canon l k)
          else none := by
  induction l with
  | nil =>
    intro d k
    cases h : pyDictGet d k <;> simp [canonImagesFrom, keySum_nil, h]
  | cons p l ih =>
    intro d k
    rw [canonImagesFrom_cons, ih]
    rw [pyDictGet_update]
    by_cases hk : k = (canon p.1).1
    · rw [if_pos hk]
      cases h : pyDictGet d k with
      | some s =>
        rw [hk] at h
        simp only [h, Option.getD_some, keySum_cons, if_pos hk.symm,
          List.any_cons]
        rw [show (s + (canon p.1).2 * p.2) + keySum canon l k
              = s + ((canon p.1).2 * p.2 + keySum canon l k) from by ring]
      | none =>
        rw [hk] at h
        simp only [h, Option.getD_none, keySum_cons, if_pos hk.symm,
          List.any_cons, zero_add]
        have hb : ((canon p.1).1 == k) = true := by
          simp [hk.symm]
        simp [hb]
    · rw [if_neg hk]
      have hb : ((canon p.1).1 == k) = false := by
        simp
        exact fun he => hk he.symm
      have hv : (if (canon p.1).1 = k then (canon p.1).2 * p.2 else 0) = 0 :=
        if_neg (fun he => hk he.symm)
      simp only [keySum_cons, hv, zero_add, List.any_cons, hb, Bool.false_or]

theorem keys_canonImagesFrom_nodup {G : Type} (canon : G → String × Int)
    (l : List (G × Int)) :
    ∀ d : List (String × Int), ((d.map Prod.fst).Nodup) →
      ((canonImagesFrom canon d l).map Prod.fst).Nodup := by
  induction l with
  | nil => intro d h; exact h
  | cons p l ih =>
    intro d h
    rw [canonImagesFrom_cons]
    exact ih _ (keys_update_nodup _ _ _ h)

theorem keySum_ne_zero_occurs {G : Type} (canon : G → String × Int)
    (l : List (G × Int)) (k : String) (h : keySum canon l k ≠ 0) :
    l.any (fun p => (canon p.1).1 == k) = true := by
  by_contra hc
  apply h
  have hall : ∀ p ∈ l, ((canon p.1).1 == k) = false := by
    intro p hp
    rcases Bool.eq_false_or_eq_true ((canon p.1).1 == k) with ht | hf
    · exact absurd (List.any_eq_true.mpr ⟨p, hp, ht⟩) hc
    · exact hf
  unfold keySum
  rw [List.sum_eq_zero]
  intro x hx
  rw [List.mem_map] at hx
  obtain ⟨p, hp, rfl⟩ := hx
  have := hall p hp
  rw [if_neg (by simpa using this)]

/-! ### Lemmas on the target-basis lookup -/

theorem pyDictGet_foldl_update {α : Type} (pairs : List (String × α)) :
    ∀ (d : List (String × α)) (s : String),
      pyDictGet (pairs.foldl (fun d q => pyDictUpdate d q.1 q.2) d) s =
        match pairs.reverse.find? (fun q => q.1 == s) with
        | some q => some q.2
        | none => pyDictGet d s := by
  induction pairs with
  | nil => intro d s; rfl
  | cons q rest ih =>
    intro d s
    simp only [List.foldl_cons, ih, List.reverse_cons]
    rw [List.find?_append]
    cases h : rest.reverse.find? (fun q => q.1 == s) with
    | some q' => simp [h]
    | none =>
      simp only [h, Option.none_or]
      rw [pyDictGet_update]
      by_cases hq : q.1 = s
      · have hb : (q.1 == s) = true := by simpa using hq
        simp only [List.find?, hb, if_pos hq.symm]
      · have hb : (q.1 == s) = false := by simpa using hq
        have hq' : ¬ s = q.1 := fun he => hq he.symm
        simp only [List.find?, hb, if_neg hq']

/-- The value buildLookup associates to a string is a position of that
string in the basis list. -/
theorem buildLookup_getElem (basis : List String) (s : String) (q : Nat)
    (h : pyDictGet (buildLookup basis) s = some q) : basis[q]? = some s := by
  unfold buildLookup at h
  rw [pyDictGet_foldl_update] at h
  cases hf : (basis.enum.map (fun p => (p.2, p.1))).reverse.find?
      (fun p => p.1 == s) with
  | none => rw [hf] at h; cases h
  | some pr =>
    rw [hf] at h
    obtain rfl : pr.2 = q := by injection h
    have hkey : pr.1 = s := by simpa using List.find?_some hf
    have hmem : pr ∈ (basis.enum.map (fun p => (p.2, p.1))).reverse :=
      List.mem_of_find?_eq_some hf
    rw [List.mem_reverse, List.mem_map] at hmem
    obtain ⟨⟨j, s'⟩, hj, hpr⟩ := hmem
    have h1 : s' = pr.1 := by rw [← hpr]
    have h2 : j = pr.2 := by rw [← hpr]
    rw [h1, h2, hkey] at hj
    exact List.mk_mem_enum_iff_getElem?.mp hj

theorem buildLookup_lt_length (basis : List String) (s : String) (q : Nat)
    (h : pyDictGet (buildLookup basis) s = some q) : q < basis.length :=
  (List.getElem?_eq_some.mp (buildLookup_getElem basis s q h)).1

theorem buildLookup_injective (basis : List String) (s1 s2 : String)
    (q : Nat) (h1 : pyDictGet (buildLookup basis) s1 = some q)
    (h2 : pyDictGet (buildLookup basis) s2 = some q) : s1 = s2 := by
  have e1 := buildLookup_getElem basis s1 q h1
  have e2 := buildLookup_getElem basis s2 q h2
  rw [e1] at e2
  injection e2

/-- Membership in the triplet list of one row: a triplet is emitted
exactly for the canonical strings with nonzero accumulated coefficient
that the lookup resolves. -/
theorem mem_generate_matrix_list {G : Type} (canon : G → String × Int)
    (lookup : String → Option Nat) (r : Nat) (imgs : List (G × Int))
    (tr : Nat × Nat × Int) :
    tr ∈ generate_matrix_list r imgs canon lookup ↔
      ∃ k : String, lookup k = some tr.2.1 ∧ tr.2.2 = keySum canon imgs k ∧
        tr.2.2 ≠ 0 ∧ tr.1 = r := by
  obtain ⟨a, q0, v0⟩ := tr
  unfold generate_matrix_list
  rw [List.mem_filterMap]
  constructor
  · rintro ⟨kv, hkv, hf⟩
    by_cases hnz : kv.2 ≠ 0
    · rw [if_pos hnz, Option.map_eq_some'] at hf
      obtain ⟨q, hq, he⟩ := hf
      simp only [Prod.mk.injEq] at he
      obtain ⟨rfl, rfl, rfl⟩ := he
      have hnodup : ((canonImagesFrom canon [] imgs).map Prod.fst).Nodup :=
        keys_canonImagesFrom_nodup canon imgs [] (by simp)
      have hget := pyDictGet_of_mem _ hnodup kv hkv
      rw [pyDictGet_canonImagesFrom] at hget
      simp only [pyDictGet] at hget
      by_cases hany : imgs.any (fun p => (canon p.1).1 == kv.1) = true
      · rw [if_pos hany] at hget
        refine ⟨kv.1, hq, ?_, hnz, rfl⟩
        injection hget with hget
        exact hget.symm
      · rw [if_neg hany] at hget
        cases hget
    · rw [if_neg hnz] at hf
      cases hf
  · rintro ⟨k, hq, hv, hnz, hr⟩
    refine ⟨(k, keySum canon imgs k), ?_, ?_⟩
    · apply mem_of_pyDictGet
      rw [pyDictGet_canonImagesFrom]
      simp only [pyDictGet]
      rw [if_pos (keySum_ne_zero_occurs canon imgs k (by rw [← hv]; exact hnz))]
    · have hnz' : keySum canon imgs k ≠ 0 := by rw [← hv]; exact hnz
      rw [if_pos hnz', hq]
      simp only [Option.map_some']
      have hr' : a = r := hr
      have hv' : v0 = keySum canon imgs k := hv
      rw [hr', hv']

/-- C3.  For every operator and domain basis graph at row r, the
triplets emitted by _generate_matrix_list for that row are exactly the
(r, q, v) with v the accumulated signed sum of the images sharing one
canonical string, v nonzero and q the position the target lookup gives
that string; no two triplets share (row, column); every column index
is below the target dimension; images absent from the target basis are
dropped with no error (the function is total and the membership
characterisation carries no error case). -/
theorem generate_matrix_list_row_spec {G : Type} (canon : G → String × Int)
    (targetBasis6 : List String) (r : Nat) (imgs : List (G × Int)) :
    (∀ tr : Nat × Nat × Int,
      tr ∈ generate_matrix_list r imgs canon
          (pyDictGet (buildLookup targetBasis6)) ↔
        ∃ k : String, pyDictGet (buildLookup targetBasis6) k = some tr.2.1 ∧
          tr.2.2 = keySum canon imgs k ∧ tr.2.2 ≠ 0 ∧ tr.1 = r)
    ∧ (generate_matrix_list r imgs canon
        (pyDictGet (buildLookup targetBasis6))).Pairwise
        (fun x y => (x.1, x.2.1) ≠ (y.1, y.2.1))
    ∧ ∀ tr ∈ generate_matrix_list r imgs canon
        (pyDictGet (buildLookup targetBasis6)),
        tr.2.1 < targetBasis6.length := by
  refine ⟨fun tr => mem_generate_matrix_list _ _ _ _ _, ?_, ?_⟩
  · unfold generate_matrix_list
    rw [List.pairwise_filterMap]
    have hnodup : ((canonImagesFrom canon [] imgs).map Prod.fst).Nodup :=
      keys_canonImagesFrom_nodup canon imgs [] (by simp)
    have hpw : (canonImagesFrom canon [] imgs).Pairwise
        (fun x y => x.1 ≠ y.1) := by
      rw [List.Nodup, List.pairwise_map] at hnodup
      exact hnodup
    refine hpw.imp ?_
    intro x y hxy a ha b hb
    rw [Option.mem_def] at ha hb
    by_cases hx : x.2 ≠ 0
    · rw [if_pos hx, Option.map_eq_some'] at ha
      obtain ⟨qx, hqx, hax⟩ := ha
      by_cases hy : y.2 ≠ 0
      · rw [if_pos hy, Option.map_eq_some'] at hb
        obtain ⟨qy, hqy, hby⟩ := hb
        intro he
        apply hxy
        apply buildLookup_injective targetBasis6 x.1 y.1 qx hqx
        have h1 : a.2.1 = qx := by rw [← hax]
        have h2 : b.2.1 = qy := by rw [← hby]
        have h3 : a.2.1 = b.2.1 := congrArg Prod.snd he
        rw [h1, h2] at h3
        rw [h3]
        exact hqy
      · rw [if_neg hy] at hb
        cases hb
    · rw [if_neg hx] at ha
      cases ha
  · intro tr htr
    rw [mem_generate_matrix_list] at htr
    obtain ⟨k, hq, -, -, -⟩ := htr
    exact buildLookup_lt_length targetBasis6 k tr.2.1 hq

theorem fst_of_mem_generate_matrix_list {G : Type} (canon : G → String × Int)
    (lookup : String → Option Nat) (r : Nat) (imgs : List (G × Int))
    (tr : Nat × Nat × Int) (h : tr ∈ generate_matrix_list r imgs canon lookup) :
    tr.1 = r := by
  rw [mem_generate_matrix_list] at h
  obtain ⟨k, -, -, -, hr⟩ := h
  exact hr

theorem pairwise_fst_le_enumFrom {α : Type} (l : List α) :
    ∀ n : Nat, (l.enumFrom n).Pairwise (fun p q => p.1 ≤ q.1) := by
  induction l with
  | nil => intro n; simp
  | cons x xs ih =>
    intro n
    refine List.Pairwise.cons ?_ (ih (n + 1))
    intro q hq
    have h1 := List.le_fst_of_mem_enumFrom hq
    omega

theorem pairwise_fst_le_enum {α : Type} (l : List α) :
    l.enum.Pairwise (fun p q => p.1 ≤ q.1) :=
  pairwise_fst_le_enumFrom l 0

theorem build_matrix_list_empty_target {G : Type} (domainBasis : List G)
    (operate_on : G → List (G × Int)) (canon : G → String × Int) :
    build_matrix_list domainBasis [] operate_on canon = [] := by
  unfold build_matrix_list
  rw [List.flatten_eq_nil_iff]
  intro l hl
  rw [List.mem_map] at hl
  obtain ⟨p, hp, rfl⟩ := hl
  unfold generate_matrix_list
  rw [List.filterMap_eq_nil_iff]
  intro kv hkv
  have hnone : pyDictGet (buildLookup []) kv.1 = none := rfl
  by_cases hnz : kv.2 ≠ 0 <;> simp [hnz, hnone]

/-- Strict lexicographic-or-equal order on matrix triplets by
(row, column), the order the spec asserts for the stored file. -/
def tripletLexLE (x y : Nat × Nat × Int) : Prop :=
  x.1 < y.1 ∨ (x.1 = y.1 ∧ x.2.1 ≤ y.2.1)

instance : DecidableRel tripletLexLE := fun x y => by
  unfold tripletLexLE
  infer_instance

/-- C4 counterexample.  One domain graph whose two images canonicalise
to "b" (inserted first into the canonImages dict) and "a", against the
target basis ["a", "b"]: build_matrix emits the row as
[(0, 1, 1), (0, 0, 1)] and stores it in exactly that order, columns
descending — _store_matrix performs no sort, so the file is not
lexicographically sorted by (row, column). -/
theorem build_matrix_not_sorted :
    build_matrix_list [0] ["a", "b"]
        (fun _ => ([(1, 1), (2, 1)] : List (Nat × Int)))
        (fun g => (if g = 1 then "b" else "a", 1)) = [(0, 1, 1), (0, 0, 1)]
    ∧ (build_matrix_stored [0] ["a", "b"]
        (fun _ => ([(1, 1), (2, 1)] : List (Nat × Int)))
        (fun g => (if g = 1 then "b" else "a", 1))).body =
        [[1, 2, 1], [1, 1, 1], [0, 0, 0]]
    ∧ ¬ List.Pairwise tripletLexLE [(0, 1, 1), (0, 0, 1)] := by
  refine ⟨by decide, by decide, ?_⟩
  intro h
  have h1 := List.rel_of_pairwise_cons h (List.mem_singleton.mpr rfl)
  rcases h1 with h1 | ⟨-, h2⟩
  · exact absurd h1 (by decide)
  · exact absurd h2 (by decide)

/-- C4 (amended).  build_matrix stores the concatenation of the
per-row triplet lists in domain-basis row order: the row indices of
the stored triplets are nondecreasing, and the file body is exactly
the assembled list (1-based, in assembly order) followed by the
terminator — no sorting of any kind is applied, so within a row the
columns keep the canonical-image dict order. -/
theorem build_matrix_row_order {G : Type} (domainBasis : List G)
    (targetBasis6 : List String) (operate_on : G → List (G × Int))
    (canon : G → String × Int) :
    (build_matrix_list domainBasis targetBasis6 operate_on canon).Pairwise
      (fun x y => x.1 ≤ y.1)
    ∧ (build_matrix_stored domainBasis targetBasis6 operate_on canon).body =
        (build_matrix_list domainBasis targetBasis6 operate_on canon).map
          (fun e => [(e.1 : Int) + 1, (e.2.1 : Int) + 1, e.2.2])
          ++ [[0, 0, 0]] := by
  constructor
  · unfold build_matrix_list
    rw [List.pairwise_flatten]
    constructor
    · intro l hl
      rw [List.mem_map] at hl
      obtain ⟨p, hp, rfl⟩ := hl
      refine List.pairwise_of_forall_mem_list ?_
      intro x hx y hy
      rw [fst_of_mem_generate_matrix_list _ _ _ _ _ hx,
        fst_of_mem_generate_matrix_list _ _ _ _ _ hy]
    · rw [List.pairwise_map]
      refine (pairwise_fst_le_enum domainBasis).imp ?_
      intro p q hpq x hx y hy
      rw [fst_of_mem_generate_matrix_list _ _ _ _ _ hx,
        fst_of_mem_generate_matrix_list _ _ _ _ _ hy]
      exact hpq
  · unfold build_matrix_stored
    by_cases h : domainBasis.length = 0 ∨ targetBasis6.length = 0
    · rw [if_pos h]
      rcases h with h | h
      · rw [List.length_eq_zero.mp h]
        rfl
      · rw [List.length_eq_zero.mp h,
          build_matrix_list_empty_target domainBasis operate_on canon]
        rfl
    · rw [if_neg h]
      rfl

theorem basisSetFold_go {G P : Type} (canon6 : G → String) (autG : G → List P)
    (ps : G → P → Int) (l : List G) :
    ∀ acc : List String,
      (∀ s, s ∈ l.foldl (basisStep canon6 autG ps) acc ↔
        s ∈ acc ∨ ∃ g ∈ l, canon6 g = s ∧
          has_odd_automorphisms ps g (autG g) = false)
      ∧ (acc.Nodup → (l.foldl (basisStep canon6 autG ps) acc).Nodup) := by
  induction l with
  | nil => intro acc; simp
  | cons g l ih =>
    intro acc
    rw [List.foldl_cons]
    constructor
    · intro s
      rw [(ih (basisStep canon6 autG ps acc g)).1]
      unfold basisStep
      by_cases h1 : canon6 g ∈ acc
      · rw [if_pos h1]
        constructor
        · rintro (hs | hg)
          · exact Or.inl hs
          · obtain ⟨g', hg', hp⟩ := hg
            exact Or.inr ⟨g', List.mem_cons_of_mem _ hg', hp⟩
        · rintro (hs | hg)
          · exact Or.inl hs
          · obtain ⟨g', hg', hc, ho⟩ := hg
            cases hg' with
            | head => exact Or.inl (hc ▸ h1)
            | tail _ hg' => exact Or.inr ⟨g', hg', hc, ho⟩
      · rw [if_neg h1]
        by_cases h2 : has_odd_automorphisms ps g (autG g) = true
        · rw [if_pos h2]
          constructor
          · rintro (hs | hg)
            · exact Or.inl hs
            · obtain ⟨g', hg', hp⟩ := hg
              exact Or.inr ⟨g', List.mem_cons_of_mem _ hg', hp⟩
          · rintro (hs | hg)
            · exact Or.inl hs
            · obtain ⟨g', hg', hc, ho⟩ := hg
              cases hg' with
              | head => rw [h2] at ho; cases ho
              | tail _ hg' => exact Or.inr ⟨g', hg', hc, ho⟩
        · rw [if_neg h2]
          constructor
          · rintro (hs | hg)
            · rw [List.mem_append, List.mem_singleton] at hs
              rcases hs with hs | rfl
              · exact Or.inl hs
              · exact Or.inr ⟨g, List.mem_cons_self _ _, rfl,
                  Bool.not_eq_true _ ▸ h2⟩
            · obtain ⟨g', hg', hp⟩ := hg
              exact Or.inr ⟨g', List.mem_cons_of_mem _ hg', hp⟩
          · rintro (hs | hg)
            · exact Or.inl (by
                rw [List.mem_append]
                exact Or.inl hs)
            · obtain ⟨g', hg', hc, ho⟩ := hg
              cases hg' with
              | head =>
                refine Or.inl ?_
                rw [List.mem_append, List.mem_singleton]
                exact Or.inr hc.symm
              | tail _ hg' => exact Or.inr ⟨g', hg', hc, ho⟩
    · intro hacc
      refine (ih _).2 ?_
      unfold basisStep
      by_cases h1 : canon6 g ∈ acc
      · rw [if_pos h1]; exact hacc
      · rw [if_neg h1]
        by_cases h2 : has_odd_automorphisms ps g (autG g) = true
        · rw [if_pos h2]; exact hacc
        · rw [if_neg h2]
          rw [List.nodup_append]
          exact ⟨hacc, List.nodup_singleton _,
            fun a ha hb => h1 (List.mem_singleton.mp hb ▸ ha)⟩

/-- C5 counterexample.  A valid graph vector space with no existing
basis file whose generating list is empty: build_basis returns without
writing any basis file (lines 297-301 of GraphVectorSpace.py), whereas
the claim requires a stored file with header 0. -/
theorem build_basis_empty_generating :
    build_basis true false false ([] : List Nat) (fun _ => "x")
        (fun _ => ([] : List Unit)) (fun _ _ => 1) = none
    ∧ (none : Option BasisFile) ≠ some (store_basis_g6 []) :=
  ⟨rfl, by simp⟩

/-- C5 (amended).  For a valid graph vector space with no existing
basis file and a nonempty generating list, build_basis writes a basis
file whose header is the number of accepted canonical strings and
whose lines are exactly those canonical strings, each once, in the
set's iteration order (modelled as first-insertion order; CPython
iterates in hash order) — the code applies no lexicographic sort.
With an empty generating list no file is written. -/
theorem build_basis_file_spec {G P : Type} (generatingList : List G)
    (canon6 : G → String) (autG : G → List P) (ps : G → P → Int)
    (ignore_existing_files : Bool) (hne : generatingList ≠ []) :
    ∃ f : BasisFile,
      build_basis true false ignore_existing_files generatingList
          canon6 autG ps = some f
      ∧ f.header = f.lines.length
      ∧ f.lines.Nodup
      ∧ ∀ s, s ∈ f.lines ↔ ∃ g ∈ generatingList, canon6 g = s ∧
          has_odd_automorphisms ps g (autG g) = false := by
  refine ⟨store_basis_g6 (basisSetFold canon6 autG ps generatingList),
    ?_, rfl, ?_, ?_⟩
  · unfold build_basis
    rw [if_neg (by simp), if_neg (by simp),
      if_neg (by simpa [List.length_eq_zero] using hne)]
  · exact (basisSetFold_go canon6 autG ps generatingList []).2
      List.nodup_nil
  · intro s
    have h := (basisSetFold_go canon6 autG ps generatingList []).1 s
    show s ∈ generatingList.foldl (basisStep canon6 autG ps) [] ↔ _
    rw [h]
    simp

theorem mapM_parse_store_lines (d t : Nat) :
    ∀ L : List (Nat × Nat × Int), (∀ e ∈ L, e.1 < d ∧ e.2.1 < t) →
      (L.map (fun e => [(e.1 : Int) + 1, (e.2.1 : Int) + 1, e.2.2])).mapM
        (parse_matrix_line d t) = Except.ok L := by
  intro L
  induction L with
  | nil => intro h; rfl
  | cons e L ih =>
    intro h
    have he := h e (List.mem_cons_self _ _)
    have hparse : parse_matrix_line d t
        [(e.1 : Int) + 1, (e.2.1 : Int) + 1, e.2.2] = .ok e := by
      obtain ⟨i, j, v⟩ := e
      have hi : i < d := he.1
      have hj : j < t := he.2
      simp only [parse_matrix_line]
      rw [if_neg (by omega), if_neg (by omega)]
      simp
    simp only [List.map_cons, List.mapM_cons, hparse]
    rw [ih (fun x hx => h x (List.mem_cons_of_mem _ hx))]
    rfl

/-- C6.  Round-trip through the store: for any triplet list whose
0-based indices fit the shape matching the current dimensions, storing
the matrix and loading it back returns exactly the same triplet list
(hence the same set) and the same shape; and storing any list of
graph6 strings as a basis and loading it back returns the same list in
the same order. -/
theorem store_load_roundtrip :
    (∀ (L : List (Nat × Nat × Int)) (d t : Nat),
      (∀ e ∈ L, e.1 < d ∧ e.2.1 < t) →
      load_matrix (some (store_matrix L (d, t))) d t = .ok (L, (d, t)))
    ∧ ∀ bl : List String, load_basis_g6 (some (store_basis_g6 bl)) = .ok bl := by
  constructor
  · intro L d t h
    simp only [load_matrix, store_matrix]
    rw [if_neg (by simp)]
    have hlast : ((L.map (fun e =>
        [(e.1 : Int) + 1, (e.2.1 : Int) + 1, e.2.2])) ++
        [[(0 : Int), 0, 0]]).getLast? = some [0, 0, 0] := by simp
    simp only [hlast]
    rw [if_neg (by simp)]
    have hdrop : ((L.map (fun e =>
        [(e.1 : Int) + 1, (e.2.1 : Int) + 1, e.2.2])) ++
        [[(0 : Int), 0, 0]]).dropLast = L.map (fun e =>
        [(e.1 : Int) + 1, (e.2.1 : Int) + 1, e.2.2]) := by
      simp
    simp only [hdrop, mapM_parse_store_lines d t L h]
    rfl
  · intro bl
    simp [load_basis_g6, store_basis_g6]

theorem get_dimension_error (vs : VSState) (e : PyErr)
    (h : vs.get_dimension = .error e) : e = .fileNotFound := by
  unfold VSState.get_dimension at h
  cases hv : vs.valid with
  | false => rw [hv] at h; simp at h
  | true =>
    rw [hv] at h
    simp only [not_true_eq_false, if_false] at h
    cases hb : vs.basisFile with
    | none =>
      rw [hb] at h
      injection h with h
      exact h.symm
    | some f => rw [hb] at h; cases h

theorem get_matrix_transposed_no_file (op : OpState)
    (hv : op.is_valid = true) (hm : op.matrixFile = none) :
    get_matrix_transposed op = .error .fileNotFound := by
  unfold get_matrix_transposed
  rw [hv]
  simp only [not_true_eq_false, Bool.false_eq_true, if_false]
  cases hd : op.domain.get_dimension with
  | error e =>
    obtain rfl : e = PyErr.fileNotFound := get_dimension_error _ _ hd
    rfl
  | ok dv =>
    cases ht : op.target.get_dimension with
    | error e =>
      obtain rfl : e = PyErr.fileNotFound := get_dimension_error _ _ ht
      rfl
    | ok tv =>
      rw [hm]
      rfl

/-- C7 counterexample.  An invalid operator (even one whose matrix
file exists): compute_rank returns immediately on the
`if not self.is_valid(): return` guard, writing nothing — no rank file
containing 0 is materialised. -/
theorem compute_rank_invalid_no_file :
    compute_rank ⟨⟨1, false, none⟩, ⟨2, true, some ⟨1, ["a"]⟩⟩,
        some (store_matrix [] (0, 1)), none⟩ (fun _ => 0) false true =
      .ok none
    ∧ (Except.ok none : Except PyErr (Option Int)) ≠ .ok (some 0) :=
  ⟨rfl, by simp⟩

/-- C7 (amended).  With skipping requested, compute_rank writes no rank
file when the operator is valid and its matrix file is missing, and it
also writes no rank file when the operator is invalid (the code
returns before touching the store; no rank-0 file is materialised). -/
theorem compute_rank_skip_spec (op : OpState)
    (rankFn : List (Nat × Nat × Int) × (Nat × Nat) → Int)
    (ignore_existing_files : Bool) :
    (op.is_valid = false →
      compute_rank op rankFn ignore_existing_files true = .ok none)
    ∧ (op.is_valid = true → op.matrixFile = none →
      compute_rank op rankFn ignore_existing_files true = .ok none) := by
  constructor
  · intro h
    unfold compute_rank
    simp [h]
  · intro hv hm
    unfold compute_rank
    rw [if_neg (by simp [hv])]
    by_cases hr : ¬ ignore_existing_files ∧ op.rankFile.isSome
    · rw [if_pos hr]
    · rw [if_neg hr, get_matrix_transposed_no_file op hv hm]
      rfl

/-- C7 witness: a valid operator whose matrix file is missing; with
skipping requested compute_rank writes no rank file. -/
theorem compute_rank_skip_spec_witness :
    compute_rank ⟨⟨1, true, some ⟨1, ["a"]⟩⟩, ⟨2, true, some ⟨1, ["b"]⟩⟩,
        none, none⟩ (fun _ => 0) false true = .ok none :=
  (compute_rank_skip_spec _ _ false).2 rfl rfl

/-- The outcome of the `try: rank = get_matrix_rank() except: return
None` step of cohomology_dim for one operand: rank 0 for an invalid
operator (no file read), the rank file's content for a valid one, and
`none` (return None) when a valid operand's rank file is missing. -/
def rankOf (op : OpState) : Option Int :=
  if ¬ op.is_valid then some 0 else op.rankFile

theorem rank_step_eq (op : OpState) :
    (if ¬ op.is_valid then Except.ok 0 else op.get_matrix_rank) =
      match rankOf op with
      | none => Except.error PyErr.fileNotFound
      | some r => Except.ok r := by
  unfold rankOf OpState.get_matrix_rank
  cases hv : op.is_valid with
  | false => simp
  | true =>
    simp only [not_true_eq_false, Bool.false_eq_true, if_false]

/-- C1 counterexample.  Both operators valid with both rank files
missing, the domain basis built with dimension 0: the claim requires
the unknown result None, but cohomology_dim returns the number 0
through its `if dimV == 0: return 0` shortcut before any rank file is
consulted. -/
theorem cohomology_dim_missing_rank_counterexample :
    cohomology_dim
      ⟨⟨1, true, some ⟨0, []⟩⟩, ⟨2, true, some ⟨0, []⟩⟩, none, none⟩
      ⟨⟨3, true, some ⟨0, []⟩⟩, ⟨1, true, some ⟨0, []⟩⟩, none, none⟩ =
      .ok (some 0)
    ∧ (Except.ok (some 0) : Except PyErr (Option Int)) ≠ .ok none :=
  ⟨rfl, by simp⟩

/-- C1 (amended).  cohomology_dim returns None when the domain basis
file is missing; returns 0 immediately when the domain dimension is 0
(even if valid operands have no rank file, and even if the rank values
would make the difference negative); for nonzero dimension it returns
None when a valid operand's rank file is missing (an invalid operand
contributes rank 0 instead), returns dim − rankD − rankDD when that
value is nonnegative, and raises ValueError when it is negative. -/
theorem cohomology_dim_characterisation (opD opDD : OpState) :
    (opD.domain.get_dimension = .error .fileNotFound →
      cohomology_dim opD opDD = .ok none)
    ∧ (opD.domain.get_dimension = .ok 0 →
      cohomology_dim opD opDD = .ok (some 0))
    ∧ (∀ dimV : Nat, opD.domain.get_dimension = .ok dimV → dimV ≠ 0 →
      rankOf opD = none → cohomology_dim opD opDD = .ok none)
    ∧ (∀ (dimV : Nat) (rD : Int), opD.domain.get_dimension = .ok dimV →
      dimV ≠ 0 → rankOf opD = some rD → rankOf opDD = none →
      cohomology_dim opD opDD = .ok none)
    ∧ (∀ (dimV : Nat) (rD rDD : Int), opD.domain.get_dimension = .ok dimV →
      dimV ≠ 0 → rankOf opD = some rD → rankOf opDD = some rDD →
      0 ≤ (dimV : Int) - rD - rDD →
      cohomology_dim opD opDD = .ok (some ((dimV : Int) - rD - rDD)))
    ∧ (∀ (dimV : Nat) (rD rDD : Int), opD.domain.get_dimension = .ok dimV →
      dimV ≠ 0 → rankOf opD = some rD → rankOf opDD = some rDD →
      (dimV : Int) - rD - rDD < 0 →
      cohomology_dim opD opDD = .error .valueError) := by
  refine ⟨?_, ?_, ?_, ?_, ?_, ?_⟩
  · intro h
    simp [cohomology_dim, h]
  · intro h
    simp [cohomology_dim, h]
  · intro dimV hd hne hro
    simp only [cohomology_dim, hd, rank_step_eq opD, hro]
    rw [if_neg hne]
  · intro dimV rD hd hne hro hroo
    simp only [cohomology_dim, hd, rank_step_eq opD, rank_step_eq opDD,
      hro, hroo]
    rw [if_neg hne]
  · intro dimV rD rDD hd hne hro hroo hpos
    simp only [cohomology_dim, hd, rank_step_eq opD, rank_step_eq opDD,
      hro, hroo]
    rw [if_neg hne, if_neg (by omega)]
  · intro dimV rD rDD hd hne hro hroo hneg
    simp only [cohomology_dim, hd, rank_step_eq opD, rank_step_eq opDD,
      hro, hroo]
    rw [if_neg hne, if_pos (by omega)]

/-- C1 witness: dimension 3, valid operands with stored ranks 1 and 0;
cohomology_dim returns 3 − 1 − 0 = 2. -/
theorem cohomology_dim_characterisation_witness :
    cohomology_dim
      ⟨⟨1, true, some ⟨3, ["a", "b", "c"]⟩⟩, ⟨2, true, some ⟨1, ["d"]⟩⟩,
        none, some 1⟩
      ⟨⟨3, true, some ⟨2, ["e", "f"]⟩⟩, ⟨1, true, some ⟨3, ["a", "b", "c"]⟩⟩,
        none, some 0⟩ = .ok (some 2) := by
  have h := (cohomology_dim_characterisation
    ⟨⟨1, true, some ⟨3, ["a", "b", "c"]⟩⟩, ⟨2, true, some ⟨1, ["d"]⟩⟩,
      none, some 1⟩
    ⟨⟨3, true, some ⟨2, ["e", "f"]⟩⟩, ⟨1, true, some ⟨3, ["a", "b", "c"]⟩⟩,
      none, some 0⟩).2.2.2.2.1 3 1 0 rfl (by decide) rfl rfl (by decide)
  have h2 : ((3 : Nat) : Int) - 1 - 0 = 2 := by norm_num
  rw [h2] at h
  exact h

/-- C10.  When the domain of d_out has a built basis of dimension 0,
cohomology_dim returns the number 0 immediately, reading no rank file:
in particular with both operators valid and both rank files missing it
still returns 0 rather than None. -/
theorem cohomology_dim_zero_dimension (opD opDD : OpState) (bf : BasisFile)
    (hb : opD.domain.basisFile = some bf) (h0 : bf.header = 0)
    (hv1 : opD.is_valid = true) (hv2 : opDD.is_valid = true)
    (hr1 : opD.rankFile = none) (hr2 : opDD.rankFile = none) :
    cohomology_dim opD opDD = .ok (some 0) := by
  have hv : opD.domain.valid = true := by
    have h := hv1
    unfold OpState.is_valid at h
    simp only [Bool.and_eq_true] at h
    exact h.1
  have hd : opD.domain.get_dimension = .ok 0 := by
    unfold VSState.get_dimension
    simp [hv, hb, h0]
  simp [cohomology_dim, hd]

/-- C10 witness: valid operators, rank files missing, domain basis
stored with header 0. -/
theorem cohomology_dim_zero_dimension_witness :
    cohomology_dim
      ⟨⟨1, true, some ⟨0, []⟩⟩, ⟨2, true, some ⟨1, ["a"]⟩⟩, none, none⟩
      ⟨⟨3, true, some ⟨1, ["b"]⟩⟩, ⟨1, true, some ⟨0, []⟩⟩, none, none⟩ =
      .ok (some 0) :=
  cohomology_dim_zero_dimension _ _ ⟨0, []⟩ rfl rfl rfl rfl rfl rfl

theorem orM_ok_false (b : Except PyErr Bool) :
    orM (Except.ok false) b = b := rfl

/-- C8.  For a quadruple (p_a, p_b, q_a, q_b) = (op1a, op1b, op2a,
op2b) with all four operators valid, none trivial and every matrix
loadable, _test_anti_commutativity_for_quadruple reports success
exactly when ‖M(q_b)·M(p_a) + ε·M(p_b)·M(q_a)‖ < eps, with ε = +1 in
anti-commute mode (commute = false) and ε = −1 in commute mode. -/
theorem anti_commutativity_quadruple_spec (op1a op1b op2a op2b : OpState)
    (commute : Bool) (eps : ℚ) (s1a s1b s2a s2b : Nat × Nat)
    (M1a M1b M2a M2b : Nat → Nat → Int)
    (hv1a : op1a.is_valid = true) (hv1b : op1b.is_valid = true)
    (hv2a : op2a.is_valid = true) (hv2b : op2b.is_valid = true)
    (ht1a : is_trivial op1a = .ok false) (ht1b : is_trivial op1b = .ok false)
    (ht2a : is_trivial op2a = .ok false) (ht2b : is_trivial op2b = .ok false)
    (hm1a : get_matrix op1a = .ok (s1a, M1a))
    (hm1b : get_matrix op1b = .ok (s1b, M1b))
    (hm2a : get_matrix op2a = .ok (s2a, M2a))
    (hm2b : get_matrix op2b = .ok (s2b, M2b)) :
    (test_anti_commutativity_for_quadruple op1a op1b op2a op2b commute eps
        = .ok .succ) ↔
      (matrix_norm (s2b.1, s1a.2)
        (fun i j => matMul s2b.2 M2b M1a i j
          + (if commute then -1 else 1) * matMul s1b.2 M1b M2a i j) : ℚ)
        < eps := by
  have horM1 : orM (is_trivial op1a) (is_trivial op2b) = Except.ok false := by
    rw [ht1a, orM_ok_false, ht2b]
  have horM2 : orM (is_trivial op2a) (is_trivial op1b) = Except.ok false := by
    rw [ht2a, orM_ok_false, ht1b]
  unfold test_anti_commutativity_for_quadruple
  rw [if_neg (by simp [hv1a, hv1b, hv2a, hv2b]),
    if_neg (by simp [hv1a, hv1b, hv2a, hv2b]),
    if_neg (by simp [hv1a, hv1b, hv2a, hv2b])]
  rw [horM1, horM2, hm1a, hm2b, hm1b, hm2a]
  show catchFNFinc TestRes.inc
      (if (matrix_norm (s2b.1, s1a.2)
          (fun i j => matMul s2b.2 M2b M1a i j
            + (if commute then -1 else 1) * matMul s1b.2 M1b M2a i j) : ℚ)
          < eps
        then Except.ok TestRes.succ else Except.ok TestRes.fail)
      = Except.ok TestRes.succ ↔ _
  by_cases hnorm : (matrix_norm (s2b.1, s1a.2)
      (fun i j => matMul s2b.2 M2b M1a i j
        + (if commute then -1 else 1) * matMul s1b.2 M1b M2a i j) : ℚ) < eps
  · rw [if_pos hnorm]
    exact iff_of_true rfl hnorm
  · rw [if_neg hnorm]
    refine iff_of_false ?_ hnorm
    intro hcontra
    have h2 : (Except.ok TestRes.fail : Except PyErr TestRes) =
        Except.ok TestRes.succ := hcontra
    simp at h2

/-- C8 witness: four copies of one 1×1 operator with a single entry 1
and eps = 10⁻⁶ in anti-commute mode; the combination norm is 2, so the
test does not report success, matching 2 < 10⁻⁶ being false. -/
theorem anti_commutativity_quadruple_spec_witness :
    (test_anti_commutativity_for_quadruple
        ⟨⟨6, true, some ⟨1, ["a"]⟩⟩, ⟨5, true, some ⟨1, ["b"]⟩⟩,
          some (store_matrix [(0, 0, 1)] (1, 1)), none⟩
        ⟨⟨6, true, some ⟨1, ["a"]⟩⟩, ⟨5, true, some ⟨1, ["b"]⟩⟩,
          some (store_matrix [(0, 0, 1)] (1, 1)), none⟩
        ⟨⟨6, true, some ⟨1, ["a"]⟩⟩, ⟨5, true, some ⟨1, ["b"]⟩⟩,
          some (store_matrix [(0, 0, 1)] (1, 1)), none⟩
        ⟨⟨6, true, some ⟨1, ["a"]⟩⟩, ⟨5, true, some ⟨1, ["b"]⟩⟩,
          some (store_matrix [(0, 0, 1)] (1, 1)), none⟩
        false (1 / 1000000) = .ok .succ) ↔
      (matrix_norm ((1, 1).1, (1, 1).2)
        (fun i j =>
          matMul (1, 1).2 (fun i j => matOf [(0, 0, 1)] j i)
            (fun i j => matOf [(0, 0, 1)] j i) i j
          + (if false then -1 else 1)
            * matMul (1, 1).2 (fun i j => matOf [(0, 0, 1)] j i)
              (fun i j => matOf [(0, 0, 1)] j i) i j) : ℚ) < 1 / 1000000 :=
  anti_commutativity_quadruple_spec _ _ _ _ false (1 / 1000000)
    (1, 1) (1, 1) (1, 1) (1, 1)
    (fun i j => matOf [(0, 0, 1)] j i) (fun i j => matOf [(0, 0, 1)] j i)
    (fun i j => matOf [(0, 0, 1)] j i) (fun i j => matOf [(0, 0, 1)] j i)
    rfl rfl rfl rfl rfl rfl rfl rfl rfl rfl rfl rfl

/-- C9.  For the ordinary graph vector space with 6 vertices, 5 loops
and odd edges, perm_sign on the wheel W₅ is +1 for the vertex
permutation (0,2,3,4,5,1) and −1 for (0,1,2,4,3,5), as the
repository's test case asserts. -/
theorem perm_sign_wheel_w5 :
    (OrdinaryGVS.mk 6 5 false).perm_sign wheelW5 [0, 2, 3, 4, 5, 1] = 1
    ∧ (OrdinaryGVS.mk 6 5 false).perm_sign wheelW5 [0, 1, 2, 4, 3, 5] = -1 := by
  constructor <;> rfl

/-- C2 (code bug).  Differential.square_zero_test reads the attribute
`op1.valid` (GraphOperator.py line 389), but GraphOperator.__init__
stores only `domain` and `target` and no class in the sources defines
an attribute `valid` — validity is the *method* is_valid() — so on the
first composable pair the test raises AttributeError instead of
classifying the pair.  Here: a two-operator collection V6→V5, V5→V4
with exactly one composable pair. -/
theorem square_zero_test_attribute_error :
    square_zero_test
      [⟨⟨6, true, some ⟨1, ["a"]⟩⟩, ⟨5, true, some ⟨1, ["b"]⟩⟩,
        some (store_matrix [(0, 0, 1)] (1, 1)), none⟩,
       ⟨⟨5, true, some ⟨1, ["b"]⟩⟩, ⟨4, true, some ⟨1, ["c"]⟩⟩,
        some (store_matrix [(0, 0, 1)] (1, 1)), none⟩]
      (1 / 1000000) = .error .attributeError := rfl

/-- C5 witness: one generating graph accepted — the stored file has
header 1 and exactly that canonical string. -/
theorem build_basis_file_spec_witness :
    ∃ f : BasisFile,
      build_basis true false false [0] (fun _ : Nat => "x")
          (fun _ => ([] : List Unit)) (fun _ _ => (1 : Int)) = some f
      ∧ f.header = f.lines.length
      ∧ f.lines.Nodup
      ∧ ∀ s, s ∈ f.lines ↔ ∃ g ∈ [0], (fun _ : Nat => "x") g = s ∧
          has_odd_automorphisms (fun _ _ => (1 : Int)) g
            ((fun _ => ([] : List Unit)) g) = false :=
  build_basis_file_spec [0] (fun _ => "x") (fun _ => []) (fun _ _ => 1)
    false (by simp)

/-- C3 witness: a single image canonicalising to "a" with the target
basis ["a"] yields the triplet (0, 0, 1), whose column index lies
inside the target dimension. -/
theorem generate_matrix_list_row_spec_witness :
    ((0, 0, 1) : Nat × Nat × Int) ∈
      generate_matrix_list 0 [((0 : Nat), (1 : Int))]
        (fun _ => ("a", 1)) (pyDictGet (buildLookup ["a"]))
    ∧ ((0, 0, 1) : Nat × Nat × Int).2.1 < (["a"] : List String).length :=
  ⟨by decide,
    (generate_matrix_list_row_spec (fun _ => ("a", 1)) ["a"] 0
      [((0 : Nat), (1 : Int))]).2.2 (0, 0, 1) (by decide)⟩

/-- C6 witness: a concrete triplet within shape 2×2 survives the
matrix round-trip. -/
theorem store_load_roundtrip_witness :
    load_matrix (some (store_matrix [(0, 1, 5)] (2, 2))) 2 2 =
      .ok ([(0, 1, 5)], (2, 2)) :=
  store_load_roundtrip.1 [(0, 1, 5)] 2 2 (by decide)

end GH
